import Mathlib

/-!
# Verification development for `src/bench/particl_add_tx.cpp`

Shallow embedding of the benchmark helpers `CreateTxn`, `AddAnonTxn`,
`StakeNBlocks`, `AddTx` and of the benchmark registration table.

Everything the file calls but does not define (wallet, chain, clock, RPC,
block assembler) is an explicit interface `Env` over a world state `σ`:
each call is a function of the state that returns its result together with
the next state.  The calls made are recorded in a log, in the order of the
source text.  Locks (`LOCK(cs_wallet)`) have no counterpart in this sequential model.
-/

namespace AddTxBench

/-! ## 64-bit integer arithmetic -/

/-- Bit pattern (two's complement, 64 bits) of an `int64_t` value. -/
def toU64 (x : Int) : Nat := (x % 2 ^ 64).toNat

/-- The `int64_t` value carried by a 64-bit pattern. -/
def ofU64 (n : Nat) : Int :=
  if n % 2 ^ 64 < 2 ^ 63 then ((n % 2 ^ 64 : Nat) : Int) else ((n % 2 ^ 64 : Nat) : Int) - 2 ^ 64

/-- The operand `~mask` as it enters the 64-bit `&` of line 87.  The complement
is taken in the type that `GetStakeTimestampMask` returns, which is declared
outside this file: `maskBits` is the number of low bits in which the complement
is taken before it is extended with zeros to 64 bits (64 for a signed or a
64-bit mask type, 32 for an unsigned 32-bit one). -/
def complementOfMask (maskBits mask : Nat) : Nat := 2 ^ maskBits - 1 - mask % 2 ^ maskBits

/-- Line 87: `GetAdjustedTime() & ~Params().GetStakeTimestampMask(nBestHeight+1)`,
stored in an `int64_t`. -/
def searchTimeOf (maskBits : Nat) (adjusted : Int) (mask : Nat) : Int :=
  ofU64 (toU64 adjusted &&& complementOfMask maskBits mask)

/-! ## Data model -/

/-- The enumerators of `OutputTypes` that the file mentions. -/
inductive OutputTypes
  | OUTPUT_NULL
  | OUTPUT_STANDARD
  | OUTPUT_CT
  | OUTPUT_RINGCT
  deriving DecidableEq, Repr

/-- A `CBitcoinAddress`, built from the string an RPC returned. -/
structure CBitcoinAddress where
  str : String
  deriving DecidableEq, Repr

/-- A `CTxDestination`: the destination decoded from an address by `Get()`. -/
structure CTxDestination where
  ofAddress : CBitcoinAddress
  deriving DecidableEq, Repr

/-- The method `address.Get()`. -/
def CBitcoinAddress.Get (a : CBitcoinAddress) : CTxDestination := ⟨a⟩

/-- The fields of `CTempRecipient` that the file sets. -/
structure CTempRecipient where
  nType : Int
  amount : Int
  address : CTxDestination
  deriving DecidableEq, Repr

/-- One logged call, with the arguments the file passes and, where the file uses
it, the value that came back.  `τ` is the type of transaction handles.  The
entries `StakeNBlocks` and `CreateTxn` record a call to a function of this file,
made at its entry; all others are calls to code outside the file. -/
inductive Event (τ : Type)
  | getHeightInt (pwallet : String)
  | GetAdjustedTime
  | GetStakeTimestampMask (nHeight : Int)
  | sleep_for (ms : Nat)
  | CreateNewBlock (fMineWitnessTx : Bool)
  | SignBlock (pwallet : String) (nHeight : Int) (nSearchTime : Int)
  | CheckStake
  | SyncWithValidationInterfaceQueue
  | AddStandardInputs (pwallet : String) (vecSend : List CTempRecipient) (sign : Bool)
      (rv : Int) (tx : τ)
  | AddBlindedInputs (pwallet : String) (vecSend : List CTempRecipient) (sign : Bool)
      (rv : Int) (tx : τ)
  | AddAnonInputs (pwallet : String) (vecSend : List CTempRecipient) (sign : Bool)
      (nRingSize : Int) (nInputsPerSig : Int) (rv : Int) (tx : τ)
  | SubmitMemoryPoolAndRelay (pwallet : String) (tx : τ)
  | TestingSetup
  | ECC_Start_Stealth
  | ECC_Start_Blinding
  | MakeChain
  | MakeWalletClient
  | registerRpcs
  | CreateWalletFromFile (location : String)
  | Initialise (pwallet : String)
  | AddWallet (pwallet : String)
  | SetLastBlockProcessed (pwallet : String)
  | CallRPC (args : String) (wallet : String) (rv : String)
  | StakeNBlocks (pwallet : String) (nBlocks : Nat)
  | CreateTxn (pwallet : String) (address : CBitcoinAddress) (amount : Int) (type_in : Int)
      (type_out : Int) (nRingSize : Option Int)
  | AddToWalletIfInvolvingMe (pwallet : String) (tx : τ)
  | RemoveWallet (pwallet : String)
  | ECC_Stop_Stealth
  | ECC_Stop_Blinding
  deriving DecidableEq, Repr

/-- Everything the file calls and does not define.  A call whose result the file
uses maps the world state to that result and the next state; `effect ev` is the
change of state made by a call `ev` whose result the file does not use
(`sleep_for`, `SyncWithValidationInterfaceQueue`, `AddToWalletIfInvolvingMe`, the
set-up and tear-down calls).  The constant `COIN`, the numeric values `code` of
the `OutputTypes` enumerators and the width `maskBits` (see `complementOfMask`)
are declared outside this file and are fields too. -/
structure Env (σ τ : Type) where
  COIN : Int
  code : OutputTypes → Int
  maskBits : Nat
  getHeightInt : String → σ → Int × σ
  GetAdjustedTime : σ → Int × σ
  GetStakeTimestampMask : Int → Nat
  nLastCoinStakeSearchTime : String → σ → Int
  CreateNewBlock : Bool → σ → Bool × σ
  SignBlock : String → Int → Int → σ → Bool × σ
  CheckStake : σ → Bool × σ
  IsValid : CBitcoinAddress → Bool
  AddStandardInputs : String → List CTempRecipient → Bool → σ → (Int × τ) × σ
  AddBlindedInputs : String → List CTempRecipient → Bool → σ → (Int × τ) × σ
  AddAnonInputs : String → List CTempRecipient → Bool → Int → Int → σ → (Int × τ) × σ
  SubmitMemoryPoolAndRelay : String → τ → σ → Bool × σ
  CreateWalletFromFile : String → σ → Bool × σ
  CallRPC : String → String → σ → String × σ
  effect : Event τ → σ → σ

/-- World state together with the log of the calls made so far. -/
structure Sim (σ τ : Type) where
  st : σ
  log : List (Event τ)

/-- How a modelled function ended: it returned, or the `assert` on the given
source line failed. -/
inductive Outcome
  | returned
  | assertFailed (line : Nat)
  deriving DecidableEq, Repr

/-! ## `StakeNBlocks` (lines 79-112) -/

/-- How one pass through the loop body ended. -/
inductive Flow
  | next
  | leave
  | assertFailed (line : Nat)
  deriving DecidableEq, Repr

/-- Record of one pass through the body of the `for` loop. -/
structure Cycle (σ τ : Type) where
  st : σ
  nStaked : Nat
  nBestHeight : Int
  adjusted : Int
  mask : Nat
  nSearchTime : Int
  lastSearchTime : Int
  signed : Bool
  staked : Bool
  calls : List (Event τ)
  flow : Flow

/-- Lines 85-108: one pass through the body of the `for` loop, started in state `s`
with `nStaked` blocks counted so far.  The height is an `int` and `nBestHeight+1`
is taken without wrap-around (chain heights stay far below `2^31`); the counters
`k` and `nStaked` are `size_t` values that never exceed `nTries`. -/
def cycle {σ τ : Type} (env : Env σ τ) (pwallet : String) (nBlocks : Nat) (s : σ)
    (nStaked : Nat) : Cycle σ τ :=
  let (nBestHeight, s1) := env.getHeightInt pwallet s
  let (adjusted, s2) := env.GetAdjustedTime s1
  let mask := env.GetStakeTimestampMask (nBestHeight + 1)
  let nSearchTime := searchTimeOf env.maskBits adjusted mask
  let last := env.nLastCoinStakeSearchTime pwallet s2
  let calls0 : List (Event τ) :=
    [.getHeightInt pwallet, .GetAdjustedTime, .GetStakeTimestampMask (nBestHeight + 1)]
  let c0 : Cycle σ τ :=
    { st := s2, nStaked := nStaked, nBestHeight := nBestHeight, adjusted := adjusted,
      mask := mask, nSearchTime := nSearchTime, lastSearchTime := last, signed := false,
      staked := false, calls := calls0, flow := .next }
  if nSearchTime ≤ last then
    -- lines 89-90: sleep and `continue`
    { c0 with st := env.effect (.sleep_for 250) s2, calls := calls0 ++ [.sleep_for 250] }
  else
    let (tmpl, s3) := env.CreateNewBlock false s2
    let calls1 := calls0 ++ [.CreateNewBlock false]
    if tmpl = false then
      { c0 with st := s3, calls := calls1, flow := .assertFailed 95 }
    else
      let (signed, s4) := env.SignBlock pwallet (nBestHeight + 1) nSearchTime s3
      let calls2 := calls1 ++ [.SignBlock pwallet (nBestHeight + 1) nSearchTime]
      let (staked, s5) := if signed then env.CheckStake s4 else (false, s4)
      let calls3 := if signed then calls2 ++ [.CheckStake] else calls2
      let nStaked1 := if signed && staked then nStaked + 1 else nStaked
      if nStaked1 ≥ nBlocks then
        -- lines 105-107: `break`
        { c0 with st := s5, nStaked := nStaked1, signed := signed, staked := staked,
                  calls := calls3, flow := .leave }
      else
        { c0 with st := env.effect (.sleep_for 250) s5, nStaked := nStaked1, signed := signed,
                  staked := staked, calls := calls3 ++ [.sleep_for 250] }

/-- Line 83: the bound `nTries`. -/
def nTries : Nat := 10000

/-- Result of a run of `StakeNBlocks`. -/
structure StakeRun (σ τ : Type) where
  st : σ
  k : Nat
  nStaked : Nat
  cycles : List (Cycle σ τ)
  outcome : Outcome

/-- Lines 84-109: the loop `for (k = 0; k < nTries; ++k)`, with `fuel = nTries - k`
passes left. -/
def stakeLoop {σ τ : Type} (env : Env σ τ) (pwallet : String) (nBlocks : Nat) :
    Nat → Nat → σ → Nat → StakeRun σ τ
  | 0, k, s, nStaked =>
    -- `k = nTries`: the loop is left by its condition and line 110 fails
    { st := s, k := k, nStaked := nStaked, cycles := [], outcome := .assertFailed 110 }
  | fuel + 1, k, s, nStaked =>
    let c := cycle env pwallet nBlocks s nStaked
    match c.flow with
    | .next =>
      let r := stakeLoop env pwallet nBlocks fuel (k + 1) c.st c.nStaked
      { r with cycles := c :: r.cycles }
    | .leave =>
      -- `break`; `k < nTries` holds and line 111 runs
      { st := env.effect .SyncWithValidationInterfaceQueue c.st, k := k, nStaked := c.nStaked,
        cycles := [c], outcome := .returned }
    | .assertFailed line =>
      { st := c.st, k := k, nStaked := c.nStaked, cycles := [c], outcome := .assertFailed line }

/-- Lines 79-112: `StakeNBlocks(pwallet, nBlocks)` started in state `s`. -/
def StakeNBlocks {σ τ : Type} (env : Env σ τ) (pwallet : String) (nBlocks : Nat) (s : σ) :
    StakeRun σ τ :=
  stakeLoop env pwallet nBlocks nTries 0 s 0

/-- Modelled from the spec: the Stake Window of a wallet, whose code
(`CHDWallet::SignBlock` and the writes to `nLastCoinStakeSearchTime`) is not in
this file.  The spec calls it "the bookkeeping of the last attempted, mask-aligned
search time" and says it is "mutated only by the Block Assembler": the state
carries, per wallet, the last search time; `SignBlock` sets it to the search time
of the attempt, `nLastCoinStakeSearchTime` reads it, and no other call changes it.
The results of all calls stay those of the underlying `env`. -/
def withStakeWindow {σ τ : Type} (env : Env σ τ) : Env (σ × (String → Int)) τ where
  COIN := env.COIN
  code := env.code
  maskBits := env.maskBits
  getHeightInt := fun pw s => ((env.getHeightInt pw s.1).1, ((env.getHeightInt pw s.1).2, s.2))
  GetAdjustedTime := fun s => ((env.GetAdjustedTime s.1).1, ((env.GetAdjustedTime s.1).2, s.2))
  GetStakeTimestampMask := env.GetStakeTimestampMask
  nLastCoinStakeSearchTime := fun pw s => s.2 pw
  CreateNewBlock := fun b s => ((env.CreateNewBlock b s.1).1, ((env.CreateNewBlock b s.1).2, s.2))
  SignBlock := fun pw h t s =>
    ((env.SignBlock pw h t s.1).1,
      ((env.SignBlock pw h t s.1).2, fun x => if x = pw then t else s.2 x))
  CheckStake := fun s => ((env.CheckStake s.1).1, ((env.CheckStake s.1).2, s.2))
  IsValid := env.IsValid
  AddStandardInputs := fun pw v b s =>
    ((env.AddStandardInputs pw v b s.1).1, ((env.AddStandardInputs pw v b s.1).2, s.2))
  AddBlindedInputs := fun pw v b s =>
    ((env.AddBlindedInputs pw v b s.1).1, ((env.AddBlindedInputs pw v b s.1).2, s.2))
  AddAnonInputs := fun pw v b r i s =>
    ((env.AddAnonInputs pw v b r i s.1).1, ((env.AddAnonInputs pw v b r i s.1).2, s.2))
  SubmitMemoryPoolAndRelay := fun pw t s =>
    ((env.SubmitMemoryPoolAndRelay pw t s.1).1, ((env.SubmitMemoryPoolAndRelay pw t s.1).2, s.2))
  CreateWalletFromFile := fun l s =>
    ((env.CreateWalletFromFile l s.1).1, ((env.CreateWalletFromFile l s.1).2, s.2))
  CallRPC := fun a w s => ((env.CallRPC a w s.1).1, ((env.CallRPC a w s.1).2, s.2))
  effect := fun ev s => (env.effect ev s.1, s.2)

/-- A cycle produced a block: `SignBlock` and `CheckStake` both succeeded. -/
def Cycle.produced {σ τ : Type} (c : Cycle σ τ) : Bool := c.signed && c.staked

/-- A cycle attempted a block: it called `SignBlock`. -/
def Cycle.attempted {σ τ : Type} (c : Cycle σ τ) : Bool :=
  c.calls.any fun ev =>
    match ev with
    | .SignBlock _ _ _ => true
    | _ => false

/-! ## `CreateTxn` (lines 21-50) and `AddAnonTxn` (lines 52-77) -/

/-- Make a call whose result is not used: change the state and log the call. -/
def perform {σ τ : Type} (env : Env σ τ) (ev : Event τ) (w : Sim σ τ) : Sim σ τ :=
  { st := env.effect ev w.st, log := w.log ++ [ev] }

/-- Lines 21-50: `CreateTxn(pwallet, address, amount, type_in, type_out, nRingSize)`.
`nRingSize = none` is a call that leaves the last argument out (default `5`).
The call itself is logged first.  The result is the transaction `wtx.tx`, or the
line of the `assert` that failed. -/
def CreateTxn {σ τ : Type} (env : Env σ τ) (pwallet : String) (address : CBitcoinAddress)
    (amount : Int) (type_in type_out : Int) (nRingSize : Option Int) (w : Sim σ τ) :
    Sim σ τ × Except Nat τ :=
  let w : Sim σ τ :=
    { w with log := w.log ++ [.CreateTxn pwallet address amount type_in type_out nRingSize] }
  if env.IsValid address = false then (w, .error 25)
  else
    let r : CTempRecipient := { nType := type_out, amount := amount, address := address.Get }
    let vecSend := [r]
    if type_in = env.code .OUTPUT_STANDARD then
      let ((rv, tx), s1) := env.AddStandardInputs pwallet vecSend true w.st
      let w1 : Sim σ τ :=
        { st := s1, log := w.log ++ [.AddStandardInputs pwallet vecSend true rv tx] }
      if rv = 0 then (w1, .ok tx) else (w1, .error 41)
    else if type_in = env.code .OUTPUT_CT then
      let ((rv, tx), s1) := env.AddBlindedInputs pwallet vecSend true w.st
      let w1 : Sim σ τ :=
        { st := s1, log := w.log ++ [.AddBlindedInputs pwallet vecSend true rv tx] }
      if rv = 0 then (w1, .ok tx) else (w1, .error 44)
    else
      let nInputsPerSig : Int := 1
      let ring := nRingSize.getD 5
      let ((rv, tx), s1) := env.AddAnonInputs pwallet vecSend true ring nInputsPerSig w.st
      let w1 : Sim σ τ :=
        { st := s1,
          log := w.log ++ [.AddAnonInputs pwallet vecSend true ring nInputsPerSig rv tx] }
      if rv = 0 then (w1, .ok tx) else (w1, .error 47)

/-- Lines 52-77: `AddAnonTxn(pwallet, address, amount, output_type)`. -/
def AddAnonTxn {σ τ : Type} (env : Env σ τ) (pwallet : String) (address : CBitcoinAddress)
    (amount : Int) (output_type : OutputTypes) (w : Sim σ τ) : Sim σ τ × Outcome :=
  if env.IsValid address = false then (w, .assertFailed 57)
  else
    let r : CTempRecipient :=
      { nType := env.code output_type, amount := amount, address := address.Get }
    let vecSend := [r]
    let ((rv, tx), s1) := env.AddStandardInputs pwallet vecSend true w.st
    let w1 : Sim σ τ :=
      { st := s1, log := w.log ++ [.AddStandardInputs pwallet vecSend true rv tx] }
    if rv = 0 then
      let (ok, s2) := env.SubmitMemoryPoolAndRelay pwallet tx w1.st
      let w2 : Sim σ τ := { st := s2, log := w1.log ++ [.SubmitMemoryPoolAndRelay pwallet tx] }
      if ok then (perform env .SyncWithValidationInterfaceQueue w2, .returned)
      else (w2, .assertFailed 74)
    else (w1, .assertFailed 72)

/-! ## `AddTx` (lines 114-224) -/

/-- Continue with `f` when the first part returned; stop at a failed `assert`. -/
def andThen {σ τ : Type} (r : Sim σ τ × Outcome) (f : Sim σ τ → Sim σ τ × Outcome) :
    Sim σ τ × Outcome :=
  match r with
  | (w, .returned) => f w
  | (w, .assertFailed line) => (w, .assertFailed line)

/-- Lines 164-173: `from_address_type` and `from_tx_type`, which start as the empty
string and `OUTPUT_NULL`. -/
def fromTypes (from_ : String) : String × OutputTypes :=
  if from_ = "plain" then ("getnewaddress", .OUTPUT_STANDARD)
  else if from_ = "blind" then ("getnewstealthaddress", .OUTPUT_CT)
  else if from_ = "anon" then ("getnewstealthaddress", .OUTPUT_RINGCT)
  else ("", .OUTPUT_NULL)

/-- Lines 175-184: `to_address_type` and `to_tx_type`, which start as the empty
string and `OUTPUT_NULL`. -/
def toTypes (to_ : String) : String × OutputTypes :=
  if to_ = "plain" then ("getnewaddress", .OUTPUT_STANDARD)
  else if to_ = "blind" then ("getnewstealthaddress", .OUTPUT_CT)
  else if to_ = "anon" then ("getnewstealthaddress", .OUTPUT_RINGCT)
  else ("", .OUTPUT_NULL)

/-- Make the call `CallRPC(args, wallet)` and log it with the text it returned
(`part::StripQuotes(rv.write())` where the file builds an address from it). -/
def callRPC {σ τ : Type} (env : Env σ τ) (args wallet : String) (w : Sim σ τ) :
    String × Sim σ τ :=
  let (rv, s1) := env.CallRPC args wallet w.st
  (rv, { st := s1, log := w.log ++ [.CallRPC args wallet rv] })

/-- Lines 131-134 and 137-140: create, initialise and register the wallet at
`location`. -/
def createWallet {σ τ : Type} (env : Env σ τ) (location : String) (line : Nat) (w : Sim σ τ) :
    Sim σ τ × Outcome :=
  let (ok, s1) := env.CreateWalletFromFile location w.st
  let w1 : Sim σ τ := { st := s1, log := w.log ++ [.CreateWalletFromFile location] }
  if ok then (perform env (.AddWallet location) (perform env (.Initialise location) w1), .returned)
  else (w1, .assertFailed line)

/-- Line 202: the call `StakeNBlocks(pwallet, nBlocks)` made by `AddTx`; the log
gets one entry for the call. -/
def callStakeNBlocks {σ τ : Type} (env : Env σ τ) (pwallet : String) (nBlocks : Nat)
    (w : Sim σ τ) : Sim σ τ × Outcome :=
  let r := StakeNBlocks env pwallet nBlocks w.st
  ({ st := r.st, log := w.log ++ [.StakeNBlocks pwallet nBlocks] }, r.outcome)

/-- Line 161: the argument of the first `CallRPC`. -/
def importMasterA : String :=
  "extkeyimportmaster tprv8ZgxMBicQKsPeK5mCpvMsd1cwyT1JZsrBN82XkoYuZY1EVK7EwDaiL9sDfqUU5SntTfbRfnRedFWjg5xkDG5i3iwd3yP7neX5F2dtdCojk4"

/-- Line 162: the argument of the second `CallRPC`. -/
def importMasterB : String :=
  "extkeyimportmaster \"expect trouble pause odor utility palace ignore arena disorder frog helmet addict\""

/-- Lines 195-203: the funding of wallet A. -/
def fund {σ τ : Type} (env : Env σ τ) (from_ : String) (addr_a : CBitcoinAddress)
    (w : Sim σ τ) : Sim σ τ × Outcome :=
  if from_ = "anon" ∨ from_ = "blind" then
    let ty : OutputTypes := if from_ = "anon" then .OUTPUT_RINGCT else .OUTPUT_CT
    andThen (AddAnonTxn env "a" addr_a (1 * env.COIN) ty w) fun w =>
    andThen (AddAnonTxn env "a" addr_a (1 * env.COIN) ty w) fun w =>
    andThen (AddAnonTxn env "a" addr_a (1 * env.COIN) ty w) fun w =>
    andThen (AddAnonTxn env "a" addr_a (1 * env.COIN) ty w) fun w =>
    andThen (AddAnonTxn env "a" addr_a (1 * env.COIN) ty w) fun w =>
    callStakeNBlocks env "a" 2 w
  else (w, .returned)

/-- Lines 211-213: `while (state.KeepRunning())` with the ingestion call as body;
`state` is the number of times `KeepRunning()` still answers `true`. -/
def ingest {σ τ : Type} (env : Env σ τ) (tx : τ) : Nat → Sim σ τ → Sim σ τ
  | 0, w => w
  | state + 1, w => ingest env tx state (perform env (.AddToWalletIfInvolvingMe "b" tx) w)

/-- Lines 114-224: `AddTx(state, from, to, owned)` started in world state `s`, with
an empty log.  `state` is the number of iterations the benchmark harness asks for
(see `ingest`). -/
def AddTx {σ τ : Type} (env : Env σ τ) (state : Nat) (from_ to_ : String) (owned : Bool)
    (s : σ) : Sim σ τ × Outcome :=
  -- lines 116-123
  let w : Sim σ τ := { st := s, log := [] }
  let w := perform env .TestingSetup w
  let w := perform env .ECC_Start_Stealth w
  let w := perform env .ECC_Start_Blinding w
  let w := perform env .MakeChain w
  let w := perform env .MakeWalletClient w
  let w := perform env .registerRpcs w
  -- lines 130-140
  andThen (createWallet env "a" 132 w) fun w =>
  andThen (createWallet env "b" 138 w) fun w =>
  -- lines 142-153
  let w := perform env (.SetLastBlockProcessed "a") w
  let w := perform env (.SetLastBlockProcessed "b") w
  -- lines 161-162
  let (_, w) := callRPC env importMasterA "a" w
  let (_, w) := callRPC env importMasterB "b" w
  -- lines 164-184
  let (from_address_type, from_tx_type) := fromTypes from_
  let (to_address_type, to_tx_type) := toTypes to_
  -- lines 186-187
  if from_tx_type = .OUTPUT_NULL then (w, .assertFailed 186)
  else if to_tx_type = .OUTPUT_NULL then (w, .assertFailed 187)
  else
    -- lines 189-193
    let (rv, w) := callRPC env from_address_type "a" w
    let addr_a : CBitcoinAddress := ⟨rv⟩
    let (rv, w) := callRPC env to_address_type "b" w
    let addr_b : CBitcoinAddress := ⟨rv⟩
    -- lines 195-203
    andThen (fund env from_ addr_a w) fun w =>
    -- line 205
    let address := if owned then addr_b else addr_a
    match CreateTxn env "a" address 1000 (env.code from_tx_type) (env.code to_tx_type) none w with
    | (w, .error line) => (w, .assertFailed line)
    | (w, .ok tx) =>
      -- lines 207-214
      let w := ingest env tx state w
      -- lines 216-223
      let w := perform env (.RemoveWallet "a") w
      let w := perform env (.RemoveWallet "b") w
      let w := perform env .ECC_Stop_Stealth w
      let w := perform env .ECC_Stop_Blinding w
      (w, .returned)

/-! ## Benchmark table (lines 226-266) -/

/-- One of the `static void Rhombus...(benchmark::State& state)` functions: its name and
the arguments of the `AddTx` call that is its body. -/
structure BenchFn where
  name : String
  from_ : String
  to_ : String
  owned : Bool
  deriving DecidableEq, Repr

/-- Lines 226-245: the functions that are defined (the two `PlainAnon` lines are
commented out). -/
def benchFns : List BenchFn :=
  [ ⟨"RhombusAddTxPlainPlainNotOwned", "plain", "plain", false⟩,
    ⟨"RhombusAddTxPlainPlainOwned", "plain", "plain", true⟩,
    ⟨"RhombusAddTxPlainBlindNotOwned", "plain", "blind", false⟩,
    ⟨"RhombusAddTxPlainBlindOwned", "plain", "blind", true⟩,
    ⟨"RhombusAddTxBlindPlainNotOwned", "blind", "plain", false⟩,
    ⟨"RhombusAddTxBlindPlainOwned", "blind", "plain", true⟩,
    ⟨"RhombusAddTxBlindBlindNotOwned", "blind", "blind", false⟩,
    ⟨"RhombusAddTxBlindBlindOwned", "blind", "blind", true⟩,
    ⟨"RhombusAddTxBlindAnonNotOwned", "blind", "anon", false⟩,
    ⟨"RhombusAddTxBlindAnonOwned", "blind", "anon", true⟩,
    ⟨"RhombusAddTxAnonPlainNotOwned", "anon", "plain", false⟩,
    ⟨"RhombusAddTxAnonPlainOwned", "anon", "plain", true⟩,
    ⟨"RhombusAddTxAnonBlindNotOwned", "anon", "blind", false⟩,
    ⟨"RhombusAddTxAnonBlindOwned", "anon", "blind", true⟩,
    ⟨"RhombusAddTxAnonAnonNotOwned", "anon", "anon", false⟩,
    ⟨"RhombusAddTxAnonAnonOwned", "anon", "anon", true⟩ ]

/-- Lines 247-266: the `BENCHMARK(name, iterations)` registrations (the two
`PlainAnon` lines are commented out). -/
def registrations : List (String × Nat) :=
  [ ("RhombusAddTxPlainPlainNotOwned", 100),
    ("RhombusAddTxPlainPlainOwned", 100),
    ("RhombusAddTxPlainBlindNotOwned", 100),
    ("RhombusAddTxPlainBlindOwned", 100),
    ("RhombusAddTxBlindPlainNotOwned", 100),
    ("RhombusAddTxBlindPlainOwned", 100),
    ("RhombusAddTxBlindBlindNotOwned", 100),
    ("RhombusAddTxBlindBlindOwned", 100),
    ("RhombusAddTxBlindAnonNotOwned", 100),
    ("RhombusAddTxBlindAnonOwned", 100),
    ("RhombusAddTxAnonPlainNotOwned", 100),
    ("RhombusAddTxAnonPlainOwned", 100),
    ("RhombusAddTxAnonBlindNotOwned", 100),
    ("RhombusAddTxAnonBlindOwned", 100),
    ("RhombusAddTxAnonAnonNotOwned", 100),
    ("RhombusAddTxAnonAnonOwned", 100) ]

/-- The function a registration refers to: the definition with that name. -/
def resolve (name : String) : Option BenchFn := benchFns.find? fun f => f.name = name

/-- The three privacy kinds the benchmark names range over. -/
def kinds : List String := ["plain", "blind", "anon"]

/-- The part of a benchmark name that stands for a kind. -/
def kindTag (kind : String) : String :=
  if kind = "plain" then "Plain" else if kind = "blind" then "Blind" else "Anon"

/-- The name that states `from`, `to` and `owned`, in the pattern of lines 226-245. -/
def benchName (from_ to_ : String) (owned : Bool) : String :=
  "RhombusAddTx" ++ kindTag from_ ++ kindTag to_ ++ (if owned then "Owned" else "NotOwned")

/-! ## The log of a completed `AddTx` run, written out

These definitions write out, piece by piece, what a run of `AddTx` that returns is
expected to have logged; the theorems compare them with the log of the model. -/

/-- The log of lines 116-153 when both wallets are created. -/
def setupLog (τ : Type) : List (Event τ) :=
  [.TestingSetup, .ECC_Start_Stealth, .ECC_Start_Blinding, .MakeChain, .MakeWalletClient,
    .registerRpcs, .CreateWalletFromFile "a", .Initialise "a", .AddWallet "a",
    .CreateWalletFromFile "b", .Initialise "b", .AddWallet "b",
    .SetLastBlockProcessed "a", .SetLastBlockProcessed "b"]

/-- The log of lines 216-223. -/
def teardownLog (τ : Type) : List (Event τ) :=
  [.RemoveWallet "a", .RemoveWallet "b", .ECC_Stop_Stealth, .ECC_Stop_Blinding]

/-- The log of one funding transaction `tx`: built from transparent inputs on wallet A
for a single recipient of `1*COIN` at `addr_a` with output type `ty`, submitted, and
followed by the queue sync. -/
def fundingTxLog {σ τ : Type} (env : Env σ τ) (addr_a : CBitcoinAddress) (ty : OutputTypes)
    (tx : τ) : List (Event τ) :=
  [.AddStandardInputs "a"
      [{ nType := env.code ty, amount := 1 * env.COIN, address := addr_a.Get }] true 0 tx,
    .SubmitMemoryPoolAndRelay "a" tx,
    .SyncWithValidationInterfaceQueue]

/-- The log of the funding transactions `txs`, one after the other. -/
def fundingTxsLog {σ τ : Type} (env : Env σ τ) (addr_a : CBitcoinAddress) (ty : OutputTypes) :
    List τ → List (Event τ)
  | [] => []
  | tx :: txs => fundingTxLog env addr_a ty tx ++ fundingTxsLog env addr_a ty txs

/-- The expected funding: for a blind or anon source, the funding
transactions `txs` of the source type and then `StakeNBlocks(pwallet_a, 2)`; for any
other source, nothing. -/
def fundingLog {σ τ : Type} (env : Env σ τ) (from_ : String) (addr_a : CBitcoinAddress)
    (txs : List τ) : List (Event τ) :=
  if from_ = "blind" then fundingTxsLog env addr_a .OUTPUT_CT txs ++ [.StakeNBlocks "a" 2]
  else if from_ = "anon" then
    fundingTxsLog env addr_a .OUTPUT_RINGCT txs ++ [.StakeNBlocks "a" 2]
  else []

/-- The log entry of the build routine that serves source type `type_in`. -/
def buildEntry {σ τ : Type} (env : Env σ τ) (pwallet : String) (vecSend : List CTempRecipient)
    (type_in : Int) (ring : Int) (rv : Int) (tx : τ) : Event τ :=
  if type_in = env.code .OUTPUT_STANDARD then .AddStandardInputs pwallet vecSend true rv tx
  else if type_in = env.code .OUTPUT_CT then .AddBlindedInputs pwallet vecSend true rv tx
  else .AddAnonInputs pwallet vecSend true ring 1 rv tx

/-- The log entry is a `SubmitMemoryPoolAndRelay` call. -/
def Event.isSubmit {τ : Type} : Event τ → Bool
  | .SubmitMemoryPoolAndRelay _ _ => true
  | _ => false

/-- The log entry is a `StakeNBlocks` call. -/
def Event.isStake {τ : Type} : Event τ → Bool
  | .StakeNBlocks _ _ => true
  | _ => false

/-- The log entry is a `CreateTxn` call. -/
def Event.isCreateTxn {τ : Type} : Event τ → Bool
  | .CreateTxn _ _ _ _ _ _ => true
  | _ => false

/-- The log entry is an ingestion call `AddToWalletIfInvolvingMe`. -/
def Event.isIngest {τ : Type} : Event τ → Bool
  | .AddToWalletIfInvolvingMe _ _ => true
  | _ => false

/-- The log entry is a `CallRPC` call. -/
def Event.isCallRPC {τ : Type} : Event τ → Bool
  | .CallRPC _ _ _ => true
  | _ => false

/-- The log entry is a call of one of the three build routines. -/
def Event.isBuild {τ : Type} : Event τ → Bool
  | .AddStandardInputs _ _ _ _ _ => true
  | .AddBlindedInputs _ _ _ _ _ => true
  | .AddAnonInputs _ _ _ _ _ _ _ => true
  | _ => false

/-! ## A concrete world for worked examples -/

/-- A small concrete world for worked examples: the state is the clock in seconds,
every `sleep_for` lets 16 seconds pass, the chain stays at height 0, the mask is 15,
the wallet does not move `nLastCoinStakeSearchTime` from 0, `SignBlock` and
`CheckStake` answer `signOk` and `stakeOk`, builds return `rv` and transaction 7. -/
def demoEnv (signOk stakeOk : Bool) (rv : Int) : Env Nat Nat where
  COIN := 100000000
  code := fun ty =>
    match ty with
    | .OUTPUT_NULL => 0
    | .OUTPUT_STANDARD => 1
    | .OUTPUT_CT => 2
    | .OUTPUT_RINGCT => 3
  maskBits := 64
  getHeightInt := fun _ s => (0, s)
  GetAdjustedTime := fun s => ((s : Int), s)
  GetStakeTimestampMask := fun _ => 15
  nLastCoinStakeSearchTime := fun _ _ => 0
  CreateNewBlock := fun _ s => (true, s)
  SignBlock := fun _ _ _ s => (signOk, s)
  CheckStake := fun s => (stakeOk, s)
  IsValid := fun _ => true
  AddStandardInputs := fun _ _ _ s => ((rv, 7), s)
  AddBlindedInputs := fun _ _ _ s => ((rv, 7), s)
  AddAnonInputs := fun _ _ _ _ _ s => ((rv, 7), s)
  SubmitMemoryPoolAndRelay := fun _ _ s => (true, s)
  CreateWalletFromFile := fun _ s => (true, s)
  CallRPC := fun args wallet s => (args ++ "@" ++ wallet, s)
  effect := fun ev s =>
    match ev with
    | .sleep_for _ => s + 16
    | _ => s


/-! ## Facts about the 64-bit arithmetic -/

/-- When the complement is taken in 32 unsigned bits and extended with zeros, the
`&` of line 87 also clears the bits of the time above bit 31: the width hypothesis of
`searchTimeOf_props` cannot be dropped for such a mask type. -/
theorem searchTimeOf_narrow_complement : searchTimeOf 32 (2 ^ 32 + 23) 15 = 16 := by
  decide

/-! ## Facts about one loop cycle -/

theorem cycle_wait {σ τ : Type} (env : Env σ τ) (pw : String) (nB : Nat) (s : σ) (n : Nat)
    (h : (cycle env pw nB s n).nSearchTime ≤ (cycle env pw nB s n).lastSearchTime) :
    (cycle env pw nB s n).calls =
      [.getHeightInt pw, .GetAdjustedTime,
        .GetStakeTimestampMask ((cycle env pw nB s n).nBestHeight + 1), .sleep_for 250] ∧
    (cycle env pw nB s n).flow = .next ∧ (cycle env pw nB s n).nStaked = n ∧
    (cycle env pw nB s n).signed = false ∧ (cycle env pw nB s n).staked = false ∧
    (cycle env pw nB s n).st =
      env.effect (.sleep_for 250) (env.GetAdjustedTime (env.getHeightInt pw s).2).2 := by
  simp only [cycle] at h ⊢
  split_ifs at h ⊢ with h1 h2 h3
  · simp
  all_goals (simp at h; omega)

theorem cycle_sign {σ τ : Type} (env : Env σ τ) (pw : String) (nB : Nat) (s : σ) (n : Nat)
    (pw1 : String) (h t : Int)
    (hmem : Event.SignBlock pw1 h t ∈ (cycle env pw nB s n).calls) :
    pw1 = pw ∧ h = (cycle env pw nB s n).nBestHeight + 1 ∧
    t = (cycle env pw nB s n).nSearchTime ∧
    (cycle env pw nB s n).lastSearchTime < (cycle env pw nB s n).nSearchTime := by
  simp only [cycle] at hmem ⊢
  split_ifs at hmem ⊢ with h1 h2 h3
  all_goals simp at hmem
  all_goals (simp only []; exact ⟨hmem.1, hmem.2.1, hmem.2.2, by omega⟩)

theorem cycle_attempted {σ τ : Type} (env : Env σ τ) (pw : String) (nB : Nat) (s : σ) (n : Nat) :
    (cycle env pw nB s n).attempted = true ↔
      Event.SignBlock pw ((cycle env pw nB s n).nBestHeight + 1)
        (cycle env pw nB s n).nSearchTime ∈ (cycle env pw nB s n).calls := by
  simp only [cycle, Cycle.attempted]
  split_ifs with h1 h2 h3
  all_goals simp

theorem cycle_leave {σ τ : Type} (env : Env σ τ) (pw : String) (nB : Nat) (s : σ) (n : Nat)
    (h : (cycle env pw nB s n).flow = .leave) :
    (cycle env pw nB s n).attempted = true ∧ nB ≤ (cycle env pw nB s n).nStaked := by
  simp only [cycle, Cycle.attempted] at h ⊢
  split_ifs at h ⊢ <;> simp_all

theorem cycle_next {σ τ : Type} (env : Env σ τ) (pw : String) (nB : Nat) (s : σ) (n : Nat)
    (h : (cycle env pw nB s n).flow = .next) (ha : (cycle env pw nB s n).attempted = true) :
    (cycle env pw nB s n).nStaked < nB := by
  simp only [cycle, Cycle.attempted] at h ha ⊢
  split_ifs at h ha ⊢ <;> simp_all

theorem cycle_assert {σ τ : Type} (env : Env σ τ) (pw : String) (nB : Nat) (s : σ) (n : Nat)
    (line : Nat) (h : (cycle env pw nB s n).flow = .assertFailed line) :
    line = 95 ∧ (cycle env pw nB s n).attempted = false ∧
      (cycle env pw nB s n).produced = false ∧ (cycle env pw nB s n).nStaked = n ∧
      ∃ s1, (env.CreateNewBlock false s1).1 = false := by
  simp only [cycle, Cycle.attempted, Cycle.produced] at h ⊢
  split_ifs at h ⊢ with h1 h2
  all_goals simp_all
  exact ⟨_, h2⟩

theorem cycle_count {σ τ : Type} (env : Env σ τ) (pw : String) (nB : Nat) (s : σ) (n : Nat) :
    (cycle env pw nB s n).nStaked = n + (if (cycle env pw nB s n).produced then 1 else 0) := by
  simp only [cycle, Cycle.produced]
  split_ifs <;> simp_all

theorem cycle_produced {σ τ : Type} (env : Env σ τ) (pw : String) (nB : Nat) (s : σ) (n : Nat)
    (h : (cycle env pw nB s n).produced = true) : (cycle env pw nB s n).attempted = true := by
  simp only [cycle, Cycle.attempted, Cycle.produced] at h ⊢
  split_ifs at h ⊢ <;> simp_all

/-! ## Facts about the loop -/

theorem mem_cycles {σ τ : Type} (env : Env σ τ) (pw : String) (nB : Nat) (c : Cycle σ τ) :
    ∀ (fuel k : Nat) (s : σ) (n : Nat), c ∈ (stakeLoop env pw nB fuel k s n).cycles →
      ∃ s1 n1, c = cycle env pw nB s1 n1 := by
  intro fuel
  induction fuel with
  | zero => intro k s n h; simp [stakeLoop] at h
  | succ fuel ih =>
    intro k s n h
    simp only [stakeLoop] at h
    split at h
    · simp only [List.mem_cons] at h
      rcases h with h | h
      · exact ⟨s, n, h⟩
      · exact ih _ _ _ h
    · simp only [List.mem_singleton] at h
      exact ⟨s, n, h⟩
    · simp only [List.mem_singleton] at h
      exact ⟨s, n, h⟩

/-- The counter `nStaked` counts the producing cycles, and a run that returns for a
request of at least one block has counted exactly that many. -/
theorem stakeLoop_count {σ τ : Type} (env : Env σ τ) (pw : String) (nB : Nat) :
    ∀ (fuel k : Nat) (s : σ) (n : Nat),
      (stakeLoop env pw nB fuel k s n).nStaked =
        n + ((stakeLoop env pw nB fuel k s n).cycles.filter Cycle.produced).length ∧
      (n < nB → (stakeLoop env pw nB fuel k s n).outcome = .returned →
        (stakeLoop env pw nB fuel k s n).nStaked = nB) := by
  intro fuel
  induction fuel with
  | zero => intro k s n; simp [stakeLoop]
  | succ fuel ih =>
    intro k s n
    have hcount := cycle_count env pw nB s n
    simp only [stakeLoop]
    split
    · rename_i hflow
      obtain ⟨h1, h2⟩ := ih (k + 1) (cycle env pw nB s n).st (cycle env pw nB s n).nStaked
      refine ⟨?_, ?_⟩
      · simp only [h1, List.filter_cons]
        split_ifs at hcount ⊢ <;> simp at hcount ⊢ <;> omega
      · intro hn hret
        by_cases ha : (cycle env pw nB s n).attempted = true
        · exact h2 (cycle_next env pw nB s n hflow ha) hret
        · have hp : (cycle env pw nB s n).produced = false := by
            by_contra hp
            exact ha (cycle_produced env pw nB s n (by simpa using hp))
          rw [hp] at hcount
          exact h2 (by simp at hcount; omega) hret
    · rename_i hflow
      have hl := cycle_leave env pw nB s n hflow
      refine ⟨?_, ?_⟩
      · simp only [List.filter_cons, List.filter_nil]
        split_ifs at hcount ⊢ <;> simp at hcount ⊢ <;> omega
      · intro hn _
        simp only []
        split_ifs at hcount <;> omega
    · rename_i line hflow
      obtain ⟨_, _, hp, hn, _⟩ := cycle_assert env pw nB s n line hflow
      simp [hp, hn]

/-! ## Facts about the spec-modelled Stake Window -/

theorem window_cycle {σ τ : Type} (env : Env σ τ) (pw : String) (nB : Nat)
    (s : σ × (String → Int)) (n : Nat) :
    (cycle (withStakeWindow env) pw nB s n).lastSearchTime = s.2 pw ∧
    ((cycle (withStakeWindow env) pw nB s n).attempted = false →
      (cycle (withStakeWindow env) pw nB s n).st.2 = s.2) ∧
    ((cycle (withStakeWindow env) pw nB s n).attempted = true →
      (cycle (withStakeWindow env) pw nB s n).st.2 pw =
        (cycle (withStakeWindow env) pw nB s n).nSearchTime ∧
      s.2 pw < (cycle (withStakeWindow env) pw nB s n).nSearchTime) := by
  simp only [cycle, Cycle.attempted, withStakeWindow]
  split_ifs with h1 h2 h3
  all_goals simp
  all_goals omega

theorem window_loop {σ τ : Type} (env : Env σ τ) (pw : String) (nB : Nat) :
    ∀ (fuel k : Nat) (s : σ × (String → Int)) (n : Nat),
      (∀ c ∈ (stakeLoop (withStakeWindow env) pw nB fuel k s n).cycles,
        c.attempted = true → s.2 pw < c.nSearchTime) ∧
      (stakeLoop (withStakeWindow env) pw nB fuel k s n).cycles.Pairwise
        (fun a b => a.attempted = true → b.attempted = true → a.nSearchTime < b.nSearchTime) := by
  intro fuel
  induction fuel with
  | zero => intro k s n; simp [stakeLoop]
  | succ fuel ih =>
    intro k s n
    obtain ⟨hlast, hno, hyes⟩ := window_cycle env pw nB s n
    simp only [stakeLoop]
    split
    · obtain ⟨h1, h2⟩ := ih (k + 1) (cycle (withStakeWindow env) pw nB s n).st
        (cycle (withStakeWindow env) pw nB s n).nStaked
      by_cases ha : (cycle (withStakeWindow env) pw nB s n).attempted = true
      · obtain ⟨hset, hlt⟩ := hyes ha
        refine ⟨?_, ?_⟩
        · intro c hc hac
          rcases List.mem_cons.mp hc with hc | hc
          · rw [hc]; exact hlt
          · have := h1 c hc hac
            omega
        · refine List.pairwise_cons.mpr ⟨?_, h2⟩
          intro c hc _ hac
          have := h1 c hc hac
          omega
      · have hst := hno (by simpa using ha)
        rw [hst] at h1
        refine ⟨?_, ?_⟩
        · intro c hc hac
          rcases List.mem_cons.mp hc with hc | hc
          · rw [hc] at hac; exact absurd hac ha
          · exact h1 c hc hac
        · refine List.pairwise_cons.mpr ⟨?_, h2⟩
          intro c _ hac0
          exact absurd hac0 ha
    all_goals
      refine ⟨?_, by simp⟩
      intro c hc hac
      rw [List.mem_singleton.mp hc] at hac ⊢
      exact (hyes hac).2

/-! ## Properties of `StakeNBlocks` -/

/-- C1: in every cycle of a run of `StakeNBlocks` whose search time is not greater than
the last search time read in that cycle, the calls are the three reads followed by one
`sleep_for(250 ms)` and nothing else (no `CreateNewBlock`, no `SignBlock`, no
`CheckStake`), and the loop goes on to the next cycle; and every `SignBlock` call of
any cycle carries that cycle's search time, which is strictly greater than the last
search time read in that cycle. -/
theorem C1_no_attempt_without_fresh_search_time {σ τ : Type} (env : Env σ τ) (pwallet : String)
    (nBlocks : Nat) (s : σ) (c : Cycle σ τ)
    (hc : c ∈ (StakeNBlocks env pwallet nBlocks s).cycles) :
    (c.nSearchTime ≤ c.lastSearchTime →
      c.calls = [.getHeightInt pwallet, .GetAdjustedTime,
        .GetStakeTimestampMask (c.nBestHeight + 1), .sleep_for 250] ∧
      c.flow = .next ∧
      (∀ b, Event.CreateNewBlock b ∉ c.calls) ∧
      (∀ pw h t, Event.SignBlock pw h t ∉ c.calls) ∧
      Event.CheckStake ∉ c.calls) ∧
    (∀ pw h t, Event.SignBlock pw h t ∈ c.calls →
      t = c.nSearchTime ∧ c.lastSearchTime < t) := by
  obtain ⟨s1, n1, rfl⟩ := mem_cycles env pwallet nBlocks c _ _ _ _ hc
  refine ⟨?_, ?_⟩
  · intro h
    obtain ⟨hcalls, hflow, _⟩ := cycle_wait env pwallet nBlocks s1 n1 h
    refine ⟨hcalls, hflow, ?_, ?_, ?_⟩
    · intro b; rw [hcalls]; simp
    · intro pw h t; rw [hcalls]; simp
    · rw [hcalls]; simp
  · intro pw h t hmem
    obtain ⟨_, _, ht, hlt⟩ := cycle_sign env pwallet nBlocks s1 n1 pw h t hmem
    exact ⟨ht, by rw [ht]; exact hlt⟩

/-- Worked instance of C1: the clock starts at 7, so the first cycle computes
search time 0, which is not greater than the last search time 0, and only sleeps. -/
theorem C1_witness :
    (cycle (demoEnv true true 0) "a" 1 7 0).nSearchTime ≤
        (cycle (demoEnv true true 0) "a" 1 7 0).lastSearchTime ∧
    (cycle (demoEnv true true 0) "a" 1 7 0).calls =
      [.getHeightInt "a", .GetAdjustedTime, .GetStakeTimestampMask 1, .sleep_for 250] ∧
    (StakeNBlocks (demoEnv true true 0) "a" 1 7).cycles.length = 2 :=
  ⟨by decide,
    ((C1_no_attempt_without_fresh_search_time (demoEnv true true 0) "a" 1 7
      (cycle (demoEnv true true 0) "a" 1 7 0) (List.mem_cons_self _ _)).1 (by decide)).1,
    by decide⟩

/-- C3 as stated fails: for a request of 0 blocks the first attempt is still made, and
when it succeeds the run returns with one block counted. -/
theorem C3_counterexample :
    (StakeNBlocks (demoEnv true true 0) "a" 0 1600000007).outcome = .returned ∧
    (StakeNBlocks (demoEnv true true 0) "a" 0 1600000007).nStaked = 1 ∧
    (StakeNBlocks (demoEnv true true 0) "a" 0 1600000007).nStaked ≠ 0 := by
  decide

/-- C3 (amended): for a request of at least one block, a run of `StakeNBlocks` that
returns has `nStaked = nBlocks`, and `nStaked` is the number of cycles in which
`SignBlock` and `CheckStake` both succeeded. -/
theorem C3_returns_with_requested_count {σ τ : Type} (env : Env σ τ) (pwallet : String)
    (nBlocks : Nat) (s : σ) (hn : 1 ≤ nBlocks)
    (hret : (StakeNBlocks env pwallet nBlocks s).outcome = .returned) :
    (StakeNBlocks env pwallet nBlocks s).nStaked = nBlocks ∧
    ((StakeNBlocks env pwallet nBlocks s).cycles.filter Cycle.produced).length = nBlocks := by
  obtain ⟨h1, h2⟩ := stakeLoop_count env pwallet nBlocks nTries 0 s 0
  have h3 := h2 (by omega) hret
  unfold StakeNBlocks at hret ⊢
  refine ⟨h3, ?_⟩
  omega

/-- Worked instance of the amended C3: two blocks requested, two blocks counted. -/
theorem C3_witness :
    (StakeNBlocks (demoEnv true true 0) "a" 2 1600000007).nStaked = 2 ∧
    ((StakeNBlocks (demoEnv true true 0) "a" 2 1600000007).cycles.filter
      Cycle.produced).length = 2 :=
  C3_returns_with_requested_count (demoEnv true true 0) "a" 2 1600000007 (by decide) (by decide)

/-- C5: with the Stake Window kept as the spec describes it, the search times of the
cycles of one run of `StakeNBlocks` that produce a block are strictly increasing: of
two producing cycles, the earlier one has the smaller search time.  The same holds
for the cycles that attempt a block. -/
theorem C5_producing_search_times_increase {σ τ : Type} (env : Env σ τ) (pwallet : String)
    (nBlocks : Nat) (s : σ) (last : String → Int) :
    (StakeNBlocks (withStakeWindow env) pwallet nBlocks (s, last)).cycles.Pairwise
      (fun a b => a.produced = true → b.produced = true → a.nSearchTime < b.nSearchTime) ∧
    (StakeNBlocks (withStakeWindow env) pwallet nBlocks (s, last)).cycles.Pairwise
      (fun a b => a.attempted = true → b.attempted = true → a.nSearchTime < b.nSearchTime) := by
  have h := (window_loop env pwallet nBlocks nTries 0 (s, last) 0).2
  refine ⟨?_, h⟩
  have hmem : ∀ c ∈ (StakeNBlocks (withStakeWindow env) pwallet nBlocks (s, last)).cycles,
      c.produced = true → c.attempted = true := by
    intro c hc hp
    obtain ⟨s1, n1, rfl⟩ := mem_cycles (withStakeWindow env) pwallet nBlocks c _ _ _ _ hc
    exact cycle_produced _ _ _ _ _ hp
  unfold StakeNBlocks at hmem ⊢
  refine List.Pairwise.imp_of_mem ?_ h
  intro a b ha hb hab hpa hpb
  exact hab (hmem a ha hpa) (hmem b hb hpb)

/-! ## Facts about `CreateTxn`, `AddAnonTxn` and the parts of `AddTx` -/

theorem andThen_returned {σ τ : Type} (r : Sim σ τ × Outcome)
    (f : Sim σ τ → Sim σ τ × Outcome) (h : (andThen r f).2 = .returned) :
    r.2 = .returned ∧ andThen r f = f r.1 := by
  obtain ⟨w, o⟩ := r
  cases o with
  | returned => exact ⟨rfl, rfl⟩
  | assertFailed line => simp [andThen] at h

theorem andThen_failed {σ τ : Type} (r : Sim σ τ × Outcome)
    (f : Sim σ τ → Sim σ τ × Outcome) (line : Nat) (h : (andThen r f).2 = .assertFailed line) :
    r.2 = .assertFailed line ∨ (r.2 = .returned ∧ (f r.1).2 = .assertFailed line) := by
  obtain ⟨w, o⟩ := r
  cases o with
  | returned => exact Or.inr ⟨rfl, h⟩
  | assertFailed l => left; simpa [andThen] using h

theorem createWallet_returned {σ τ : Type} (env : Env σ τ) (location : String) (line : Nat)
    (w : Sim σ τ) (h : (createWallet env location line w).2 = .returned) :
    (createWallet env location line w).1.log =
      w.log ++ [.CreateWalletFromFile location, .Initialise location, .AddWallet location] := by
  simp only [createWallet] at h ⊢
  split_ifs at h ⊢
  all_goals simp_all [perform]

theorem createWallet_failed {σ τ : Type} (env : Env σ τ) (location : String) (line l : Nat)
    (w : Sim σ τ) (h : (createWallet env location line w).2 = .assertFailed l) :
    l = line ∧ ∃ s, (env.CreateWalletFromFile location s).1 = false := by
  simp only [createWallet] at h
  split_ifs at h with h1
  all_goals simp at h
  exact ⟨h.symm, _, by simpa using h1⟩

theorem AddAnonTxn_returned {σ τ : Type} (env : Env σ τ) (pw : String) (address : CBitcoinAddress)
    (amount : Int) (ty : OutputTypes) (w : Sim σ τ)
    (h : (AddAnonTxn env pw address amount ty w).2 = .returned) :
    ∃ tx, (AddAnonTxn env pw address amount ty w).1.log =
      w.log ++ [.AddStandardInputs pw
          [{ nType := env.code ty, amount := amount, address := address.Get }] true 0 tx,
        .SubmitMemoryPoolAndRelay pw tx, .SyncWithValidationInterfaceQueue] := by
  simp only [AddAnonTxn] at h ⊢
  split_ifs at h ⊢ with h1 h2 h3
  all_goals simp at h
  exact ⟨(env.AddStandardInputs pw
    [{ nType := env.code ty, amount := amount, address := address.Get }] true w.st).1.2,
    by simp [perform, h2]⟩

theorem AddAnonTxn_failed {σ τ : Type} (env : Env σ τ) (pw : String) (address : CBitcoinAddress)
    (amount : Int) (ty : OutputTypes) (w : Sim σ τ) (line : Nat)
    (h : (AddAnonTxn env pw address amount ty w).2 = .assertFailed line) :
    line = 57 ∨ line = 72 ∨ line = 74 := by
  simp only [AddAnonTxn] at h
  split_ifs at h
  all_goals simp at h
  all_goals omega

theorem CreateTxn_log {σ τ : Type} (env : Env σ τ) (pw : String) (address : CBitcoinAddress)
    (amount type_in type_out : Int) (nRingSize : Option Int) (w : Sim σ τ)
    (hvalid : env.IsValid address = true) :
    ∃ rv tx line,
      (CreateTxn env pw address amount type_in type_out nRingSize w).1.log =
        w.log ++ [.CreateTxn pw address amount type_in type_out nRingSize,
          buildEntry env pw [{ nType := type_out, amount := amount, address := address.Get }]
            type_in (nRingSize.getD 5) rv tx] ∧
      (CreateTxn env pw address amount type_in type_out nRingSize w).2 =
        (if rv = 0 then .ok tx else .error line) ∧
      (line = 41 ∨ line = 44 ∨ line = 47) := by
  simp only [CreateTxn, buildEntry, hvalid]
  simp only [Bool.true_eq_false, if_false]
  by_cases h1 : type_in = env.code .OUTPUT_STANDARD
  · simp only [h1, if_true]
    refine ⟨(env.AddStandardInputs pw
        [{ nType := type_out, amount := amount, address := address.Get }] true w.st).1.1,
      (env.AddStandardInputs pw
        [{ nType := type_out, amount := amount, address := address.Get }] true w.st).1.2,
      41, ?_, ?_, by simp⟩
    · split_ifs <;> simp
    · split_ifs <;> rfl
  · by_cases h2 : type_in = env.code .OUTPUT_CT
    · simp only [h1, if_false, if_pos h2]
      refine ⟨(env.AddBlindedInputs pw
          [{ nType := type_out, amount := amount, address := address.Get }] true w.st).1.1,
        (env.AddBlindedInputs pw
          [{ nType := type_out, amount := amount, address := address.Get }] true w.st).1.2,
        44, ?_, ?_, by simp⟩
      · split_ifs <;> simp
      · split_ifs <;> rfl
    · simp only [h1, h2, if_false]
      refine ⟨(env.AddAnonInputs pw
          [{ nType := type_out, amount := amount, address := address.Get }] true
          (nRingSize.getD 5) 1 w.st).1.1,
        (env.AddAnonInputs pw
          [{ nType := type_out, amount := amount, address := address.Get }] true
          (nRingSize.getD 5) 1 w.st).1.2,
        47, ?_, ?_, by simp⟩
      · split_ifs <;> simp
      · split_ifs <;> rfl

theorem CreateTxn_invalid {σ τ : Type} (env : Env σ τ) (pw : String) (address : CBitcoinAddress)
    (amount type_in type_out : Int) (nRingSize : Option Int) (w : Sim σ τ)
    (hvalid : env.IsValid address = false) :
    CreateTxn env pw address amount type_in type_out nRingSize w =
      ({ w with log := w.log ++ [.CreateTxn pw address amount type_in type_out nRingSize] },
        .error 25) := by
  simp [CreateTxn, hvalid]

theorem ingest_log {σ τ : Type} (env : Env σ τ) (tx : τ) :
    ∀ (state : Nat) (w : Sim σ τ),
      (ingest env tx state w).log =
        w.log ++ List.replicate state (.AddToWalletIfInvolvingMe "b" tx) := by
  intro state
  induction state with
  | zero => intro w; simp [ingest]
  | succ n ih =>
    intro w
    simp only [ingest, ih, perform, List.replicate_succ]
    simp

theorem fund_returned {σ τ : Type} (env : Env σ τ) (from_ : String) (addr_a : CBitcoinAddress)
    (w : Sim σ τ) (h : (fund env from_ addr_a w).2 = .returned) :
    ∃ txs : List τ, (from_ = "blind" ∨ from_ = "anon" → txs.length = 5) ∧
      (¬ (from_ = "blind" ∨ from_ = "anon") → txs = []) ∧
      (fund env from_ addr_a w).1.log = w.log ++ fundingLog env from_ addr_a txs := by
  have hne : ("anon" : String) ≠ "blind" := by decide
  by_cases hfrom : from_ = "anon" ∨ from_ = "blind"
  · simp only [fund, if_pos hfrom] at h ⊢
    obtain ⟨r1, e1⟩ := andThen_returned _ _ h
    rw [e1] at h ⊢
    obtain ⟨r2, e2⟩ := andThen_returned _ _ h
    rw [e2] at h ⊢
    obtain ⟨r3, e3⟩ := andThen_returned _ _ h
    rw [e3] at h ⊢
    obtain ⟨r4, e4⟩ := andThen_returned _ _ h
    rw [e4] at h ⊢
    obtain ⟨r5, e5⟩ := andThen_returned _ _ h
    rw [e5] at h ⊢
    obtain ⟨t1, l1⟩ := AddAnonTxn_returned _ _ _ _ _ _ r1
    obtain ⟨t2, l2⟩ := AddAnonTxn_returned _ _ _ _ _ _ r2
    obtain ⟨t3, l3⟩ := AddAnonTxn_returned _ _ _ _ _ _ r3
    obtain ⟨t4, l4⟩ := AddAnonTxn_returned _ _ _ _ _ _ r4
    obtain ⟨t5, l5⟩ := AddAnonTxn_returned _ _ _ _ _ _ r5
    refine ⟨[t1, t2, t3, t4, t5], fun _ => rfl, fun hn => absurd (Or.symm hfrom) hn, ?_⟩
    simp only [callStakeNBlocks, l5, l4, l3, l2, l1, fundingLog, fundingTxsLog, fundingTxLog]
    rcases hfrom with hfrom | hfrom
    · subst hfrom
      simp [hne]
    · subst hfrom
      simp [hne.symm]
  · simp only [fund, if_neg hfrom] at h ⊢
    refine ⟨[], ?_, fun _ => rfl, ?_⟩
    · intro h1
      exact absurd (Or.symm h1) hfrom
    · have h1 : ¬ from_ = "blind" := fun h1 => hfrom (Or.inr h1)
      have h2 : ¬ from_ = "anon" := fun h2 => hfrom (Or.inl h2)
      simp [fundingLog, h1, h2]

theorem callRPC_log {σ τ : Type} (env : Env σ τ) (args wallet : String) (w : Sim σ τ) :
    (callRPC env args wallet w).2.log =
      w.log ++ [.CallRPC args wallet (callRPC env args wallet w).1] := by
  simp [callRPC]

/-- The complete log of a run of `AddTx` that returns. -/
theorem AddTx_returned {σ τ : Type} (env : Env σ τ) (state : Nat) (from_ to_ : String)
    (owned : Bool) (s : σ) (hret : (AddTx env state from_ to_ owned s).2 = .returned) :
    ∃ (i1 i2 ra rb : String) (txs : List τ) (tx : τ),
      (from_ = "blind" ∨ from_ = "anon" → txs.length = 5) ∧
      (¬ (from_ = "blind" ∨ from_ = "anon") → txs = []) ∧
      (fromTypes from_).2 ≠ .OUTPUT_NULL ∧ (toTypes to_).2 ≠ .OUTPUT_NULL ∧
      (AddTx env state from_ to_ owned s).1.log =
        setupLog τ ++
        [.CallRPC importMasterA "a" i1, .CallRPC importMasterB "b" i2,
          .CallRPC (fromTypes from_).1 "a" ra, .CallRPC (toTypes to_).1 "b" rb] ++
        fundingLog env from_ ⟨ra⟩ txs ++
        [.CreateTxn "a" (if owned then ⟨rb⟩ else ⟨ra⟩) 1000 (env.code (fromTypes from_).2)
            (env.code (toTypes to_).2) none,
          buildEntry env "a"
            [{ nType := env.code (toTypes to_).2, amount := 1000,
               address := CBitcoinAddress.Get (if owned then ⟨rb⟩ else ⟨ra⟩) }]
            (env.code (fromTypes from_).2) 5 0 tx] ++
        List.replicate state (.AddToWalletIfInvolvingMe "b" tx) ++
        teardownLog τ := by
  simp only [AddTx] at hret ⊢
  obtain ⟨r1, e1⟩ := andThen_returned _ _ hret
  rw [e1] at hret ⊢
  clear e1
  obtain ⟨r2, e2⟩ := andThen_returned _ _ hret
  rw [e2] at hret ⊢
  clear e2
  have l1 := createWallet_returned _ _ _ _ r1
  have l2 := createWallet_returned _ _ _ _ r2
  rw [l1] at l2
  generalize (createWallet env "b" 138 _).1 = wb at hret l2 ⊢
  simp only [perform] at l2
  clear r1 r2 l1
  by_cases hf : (fromTypes from_).2 = .OUTPUT_NULL
  · simp [hf] at hret
  by_cases ht : (toTypes to_).2 = .OUTPUT_NULL
  · simp [hf, ht] at hret
  simp only [hf, ht, if_false] at hret ⊢
  obtain ⟨r3, e3⟩ := andThen_returned _ _ hret
  rw [e3] at hret ⊢
  clear e3
  obtain ⟨txs, hlen, hnil, l3⟩ := fund_returned _ _ _ _ r3
  rw [callRPC_log, callRPC_log, callRPC_log, callRPC_log] at l3
  simp only [perform] at l3 hret ⊢
  generalize (callRPC env importMasterA "a" _) = c1 at hret l3 ⊢
  generalize (callRPC env importMasterB "b" _) = c2 at hret l3 ⊢
  generalize (callRPC env (fromTypes from_).1 "a" _) = c3 at hret l3 ⊢
  generalize (callRPC env (toTypes to_).1 "b" _) = c4 at hret l3 ⊢
  obtain ⟨i1, _⟩ := c1
  obtain ⟨i2, _⟩ := c2
  obtain ⟨ra, _⟩ := c3
  obtain ⟨rb, w4⟩ := c4
  dsimp only at hret l3 ⊢
  generalize (fund env from_ _ _).1 = wf at hret l3 ⊢
  clear r3
  by_cases hv : env.IsValid (if owned = true then (⟨rb⟩ : CBitcoinAddress) else ⟨ra⟩) = true
  · obtain ⟨rv, tx, line, hl, hres, _⟩ :=
      CreateTxn_log env "a" (if owned = true then (⟨rb⟩ : CBitcoinAddress) else ⟨ra⟩) 1000
        (env.code (fromTypes from_).2) (env.code (toTypes to_).2) none wf hv
    rcases hC : CreateTxn env "a" (if owned = true then (⟨rb⟩ : CBitcoinAddress) else ⟨ra⟩) 1000
        (env.code (fromTypes from_).2) (env.code (toTypes to_).2) none wf with ⟨w1, res⟩
    simp only [hC] at hl hres hret ⊢
    by_cases hrv : rv = 0
    · rw [if_pos hrv] at hres
      subst hres
      subst hrv
      refine ⟨i1, i2, ra, rb, txs, tx, hlen, hnil, hf, ht, ?_⟩
      simp only [perform, ingest_log, hl, l3, l2, setupLog, teardownLog, Option.getD_none]
      simp
    · rw [if_neg hrv] at hres
      subst hres
      simp at hret
  · rw [CreateTxn_invalid _ _ _ _ _ _ _ _ (by simpa using hv)] at hret
    simp at hret

theorem StakeNBlocks_failed {σ τ : Type} (env : Env σ τ) (pw : String) (nB : Nat) (line : Nat) :
    ∀ (fuel k : Nat) (s : σ) (n : Nat),
      (stakeLoop env pw nB fuel k s n).outcome = .assertFailed line → line = 95 ∨ line = 110 := by
  intro fuel
  induction fuel with
  | zero => intro k s n h; simp [stakeLoop] at h; omega
  | succ fuel ih =>
    intro k s n h
    simp only [stakeLoop] at h
    split at h
    · exact ih _ _ _ h
    · simp at h
    · rename_i l hflow
      simp only [Outcome.assertFailed.injEq] at h
      have := (cycle_assert env pw nB s n l hflow).1
      omega

theorem fund_failed {σ τ : Type} (env : Env σ τ) (from_ : String) (addr_a : CBitcoinAddress)
    (w : Sim σ τ) (line : Nat) (h : (fund env from_ addr_a w).2 = .assertFailed line) :
    line = 57 ∨ line = 72 ∨ line = 74 ∨ line = 95 ∨ line = 110 := by
  by_cases hfrom : from_ = "anon" ∨ from_ = "blind"
  · simp only [fund, if_pos hfrom] at h
    have step : ∀ (w : Sim σ τ) (ty : OutputTypes) (f : Sim σ τ → Sim σ τ × Outcome),
        (andThen (AddAnonTxn env "a" addr_a (1 * env.COIN) ty w) f).2 = .assertFailed line →
        (∀ w1, (f w1).2 = .assertFailed line →
          line = 57 ∨ line = 72 ∨ line = 74 ∨ line = 95 ∨ line = 110) →
        line = 57 ∨ line = 72 ∨ line = 74 ∨ line = 95 ∨ line = 110 := by
      intro w ty f hf hnext
      rcases andThen_failed _ _ _ hf with h1 | ⟨_, h1⟩
      · have := AddAnonTxn_failed _ _ _ _ _ _ _ h1
        omega
      · exact hnext _ h1
    refine step _ _ _ h fun w1 h1 => ?_
    refine step _ _ _ h1 fun w2 h2 => ?_
    refine step _ _ _ h2 fun w3 h3 => ?_
    refine step _ _ _ h3 fun w4 h4 => ?_
    refine step _ _ _ h4 fun w5 h5 => ?_
    simp only [callStakeNBlocks, StakeNBlocks] at h5
    have := StakeNBlocks_failed env "a" 2 line _ _ _ _ h5
    omega
  · simp [fund, if_neg hfrom] at h

theorem CreateTxn_failed {σ τ : Type} (env : Env σ τ) (pw : String) (address : CBitcoinAddress)
    (amount type_in type_out : Int) (nRingSize : Option Int) (w : Sim σ τ) (line : Nat)
    (h : (CreateTxn env pw address amount type_in type_out nRingSize w).2 = .error line) :
    line = 25 ∨ line = 41 ∨ line = 44 ∨ line = 47 := by
  by_cases hv : env.IsValid address = true
  · obtain ⟨rv, tx, l, _, hres, hl⟩ :=
      CreateTxn_log env pw address amount type_in type_out nRingSize w hv
    rw [hres] at h
    split_ifs at h
    simp only [Except.error.injEq] at h
    omega
  · rw [CreateTxn_invalid _ _ _ _ _ _ _ _ (by simpa using hv)] at h
    simp only [Except.error.injEq] at h
    omega

/-- Which assertion a failing run of `AddTx` can stop at, and what lines 186 and 187
mean for the two types. -/
theorem AddTx_failed {σ τ : Type} (env : Env σ τ) (state : Nat) (from_ to_ : String)
    (owned : Bool) (s : σ) (line : Nat)
    (h : (AddTx env state from_ to_ owned s).2 = .assertFailed line) :
    (line = 132 ∨ line = 138) ∧ (∃ l s1, (env.CreateWalletFromFile l s1).1 = false) ∨
    line = 186 ∧ (fromTypes from_).2 = .OUTPUT_NULL ∨
    line = 187 ∧ (fromTypes from_).2 ≠ .OUTPUT_NULL ∧ (toTypes to_).2 = .OUTPUT_NULL ∨
    (fromTypes from_).2 ≠ .OUTPUT_NULL ∧ (toTypes to_).2 ≠ .OUTPUT_NULL ∧
      (line = 57 ∨ line = 72 ∨ line = 74 ∨ line = 95 ∨ line = 110 ∨
        line = 25 ∨ line = 41 ∨ line = 44 ∨ line = 47) := by
  simp only [AddTx] at h
  rcases andThen_failed _ _ _ h with h1 | ⟨_, h1⟩
  · obtain ⟨hl, s1, hs1⟩ := createWallet_failed _ _ _ _ _ h1
    exact Or.inl ⟨Or.inl hl, _, s1, hs1⟩
  rcases andThen_failed _ _ _ h1 with h2 | ⟨_, h2⟩
  · obtain ⟨hl, s1, hs1⟩ := createWallet_failed _ _ _ _ _ h2
    exact Or.inl ⟨Or.inr hl, _, s1, hs1⟩
  by_cases hf : (fromTypes from_).2 = .OUTPUT_NULL
  · simp only [hf, if_true, Outcome.assertFailed.injEq] at h2
    exact Or.inr (Or.inl ⟨h2.symm, hf⟩)
  by_cases ht : (toTypes to_).2 = .OUTPUT_NULL
  · simp only [hf, ht, if_true, if_false, Outcome.assertFailed.injEq] at h2
    exact Or.inr (Or.inr (Or.inl ⟨h2.symm, hf, ht⟩))
  simp only [hf, ht, if_false] at h2
  refine Or.inr (Or.inr (Or.inr ⟨hf, ht, ?_⟩))
  rcases andThen_failed _ _ _ h2 with h3 | ⟨_, h3⟩
  · have := fund_failed _ _ _ _ _ h3
    omega
  · split at h3
    · rename_i w1 l hC
      simp only [Outcome.assertFailed.injEq] at h3
      have := CreateTxn_failed _ _ _ _ _ _ _ _ l (by rw [hC])
      omega
    · simp at h3

/-! ## Facts about the written-out log -/

theorem buildEntry_kind {σ τ : Type} (env : Env σ τ) (pw : String) (v : List CTempRecipient)
    (type_in ring rv : Int) (tx : τ) :
    (buildEntry env pw v type_in ring rv tx).isBuild = true ∧
    (buildEntry env pw v type_in ring rv tx).isCallRPC = false ∧
    (buildEntry env pw v type_in ring rv tx).isCreateTxn = false ∧
    (buildEntry env pw v type_in ring rv tx).isIngest = false ∧
    (buildEntry env pw v type_in ring rv tx).isSubmit = false ∧
    (buildEntry env pw v type_in ring rv tx).isStake = false := by
  unfold buildEntry
  split_ifs <;> simp [Event.isBuild, Event.isCallRPC, Event.isCreateTxn, Event.isIngest,
    Event.isSubmit, Event.isStake]

theorem filter_fundingTxsLog {σ τ : Type} (env : Env σ τ) (addr_a : CBitcoinAddress)
    (ty : OutputTypes) (txs : List τ) :
    (fundingTxsLog env addr_a ty txs).filter Event.isCallRPC = [] ∧
    (fundingTxsLog env addr_a ty txs).filter Event.isCreateTxn = [] ∧
    (fundingTxsLog env addr_a ty txs).filter Event.isIngest = [] ∧
    (fundingTxsLog env addr_a ty txs).filter Event.isStake = [] ∧
    (fundingTxsLog env addr_a ty txs).filter Event.isSubmit =
      txs.map (Event.SubmitMemoryPoolAndRelay "a") := by
  induction txs with
  | nil => simp [fundingTxsLog]
  | cons tx txs ih =>
    obtain ⟨h1, h2, h3, h4, h5⟩ := ih
    simp [fundingTxsLog, fundingTxLog, List.filter_cons, h1, h2, h3, h4, h5, Event.isCallRPC,
      Event.isCreateTxn, Event.isIngest, Event.isSubmit, Event.isStake]

theorem filter_fundingLog {σ τ : Type} (env : Env σ τ) (from_ : String)
    (addr_a : CBitcoinAddress) (txs : List τ)
    (hnil : ¬ (from_ = "blind" ∨ from_ = "anon") → txs = []) :
    (fundingLog env from_ addr_a txs).filter Event.isCallRPC = [] ∧
    (fundingLog env from_ addr_a txs).filter Event.isCreateTxn = [] ∧
    (fundingLog env from_ addr_a txs).filter Event.isIngest = [] ∧
    (fundingLog env from_ addr_a txs).filter Event.isStake =
      (if from_ = "blind" ∨ from_ = "anon" then [Event.StakeNBlocks "a" 2] else []) ∧
    (fundingLog env from_ addr_a txs).filter Event.isSubmit =
      txs.map (Event.SubmitMemoryPoolAndRelay "a") := by
  unfold fundingLog
  by_cases h1 : from_ = "blind"
  · obtain ⟨f1, f2, f3, f4, f5⟩ := filter_fundingTxsLog env addr_a .OUTPUT_CT txs
    simp [h1, List.filter_append, f1, f2, f3, f4, f5, Event.isCallRPC,
      Event.isCreateTxn, Event.isIngest, Event.isSubmit, Event.isStake]
  · by_cases h2 : from_ = "anon"
    · obtain ⟨f1, f2, f3, f4, f5⟩ := filter_fundingTxsLog env addr_a .OUTPUT_RINGCT txs
      simp [h1, h2, List.filter_append, f1, f2, f3, f4, f5, Event.isCallRPC,
        Event.isCreateTxn, Event.isIngest, Event.isSubmit, Event.isStake]
    · have := hnil (by simp [h1, h2])
      simp [h1, h2, this]

/-! ## Properties of `CreateTxn`, `AddTx` and the benchmark table -/

/-- C6: a call of `CreateTxn` with a valid address logs, after the call itself, exactly
one build routine: `AddStandardInputs` when `type_in` is `OUTPUT_STANDARD`,
`AddBlindedInputs` when it is `OUTPUT_CT`, `AddAnonInputs` for every other value, the
last with the caller's ring size (5 when the caller gives none) and one input per
signature.  The routine gets the single recipient made of `type_out`, `amount` and the
address, and `CreateTxn` returns its transaction when it answers 0. -/
theorem C6_one_build_routine_per_source_type {σ τ : Type} (env : Env σ τ) (pwallet : String)
    (address : CBitcoinAddress) (amount type_in type_out : Int) (nRingSize : Option Int)
    (w : Sim σ τ) (hvalid : env.IsValid address = true)
    (hcodes : env.code .OUTPUT_STANDARD ≠ env.code .OUTPUT_CT) :
    ∃ rv tx,
      (type_in = env.code .OUTPUT_STANDARD →
        (CreateTxn env pwallet address amount type_in type_out nRingSize w).1.log =
          w.log ++ [.CreateTxn pwallet address amount type_in type_out nRingSize,
            .AddStandardInputs pwallet
              [{ nType := type_out, amount := amount, address := address.Get }] true rv tx]) ∧
      (type_in = env.code .OUTPUT_CT →
        (CreateTxn env pwallet address amount type_in type_out nRingSize w).1.log =
          w.log ++ [.CreateTxn pwallet address amount type_in type_out nRingSize,
            .AddBlindedInputs pwallet
              [{ nType := type_out, amount := amount, address := address.Get }] true rv tx]) ∧
      (type_in ≠ env.code .OUTPUT_STANDARD → type_in ≠ env.code .OUTPUT_CT →
        (CreateTxn env pwallet address amount type_in type_out nRingSize w).1.log =
          w.log ++ [.CreateTxn pwallet address amount type_in type_out nRingSize,
            .AddAnonInputs pwallet
              [{ nType := type_out, amount := amount, address := address.Get }] true
              (match nRingSize with
                | none => 5
                | some n => n) 1 rv tx]) ∧
      (rv = 0 → (CreateTxn env pwallet address amount type_in type_out nRingSize w).2 = .ok tx) ∧
      (rv ≠ 0 → ∃ line,
        (CreateTxn env pwallet address amount type_in type_out nRingSize w).2 = .error line) := by
  obtain ⟨rv, tx, line, hl, hres, _⟩ :=
    CreateTxn_log env pwallet address amount type_in type_out nRingSize w hvalid
  refine ⟨rv, tx, ?_, ?_, ?_, ?_, ?_⟩
  · intro h1
    rw [hl, buildEntry, if_pos h1]
  · intro h2
    have h1 : type_in ≠ env.code .OUTPUT_STANDARD := by
      rw [h2]; exact fun h => hcodes h.symm
    rw [hl, buildEntry, if_neg h1, if_pos h2]
  · intro h1 h2
    rw [hl, buildEntry, if_neg h1, if_neg h2]
    cases nRingSize <;> rfl
  · intro h0
    rw [hres, if_pos h0]
  · intro h0
    exact ⟨line, by rw [hres, if_neg h0]⟩

/-- Worked instance of C6: an anonymous source (`type_in = 3`) and no ring size given. -/
theorem C6_witness :
    (CreateTxn (demoEnv true true 0) "a" ⟨"addr"⟩ 1000 3 1 none ⟨0, []⟩).1.log =
      [.CreateTxn "a" ⟨"addr"⟩ 1000 3 1 none,
        .AddAnonInputs "a" [{ nType := 1, amount := 1000, address := ⟨⟨"addr"⟩⟩ }] true 5 1 0 7] ∧
    ∃ (rv : Int) (tx : Nat),
      (rv = 0 → (CreateTxn (demoEnv true true 0) "a" ⟨"addr"⟩ 1000 3 1 none ⟨0, []⟩).2 =
        .ok tx) :=
  ⟨by decide,
    (C6_one_build_routine_per_source_type (demoEnv true true 0) "a" ⟨"addr"⟩ 1000 3 1 none
      ⟨0, []⟩ (by decide) (by decide)).imp fun _ h => h.imp fun _ h => h.2.2.2.1⟩

theorem fromTypes_cases (from_ : String) :
    (from_ ∈ kinds → (fromTypes from_).2 ≠ .OUTPUT_NULL) ∧
    (from_ ∉ kinds → (fromTypes from_).2 = .OUTPUT_NULL) := by
  unfold fromTypes kinds
  constructor
  · intro h
    simp only [List.mem_cons, List.mem_singleton, List.not_mem_nil, or_false] at h
    rcases h with h | h | h <;> subst h <;> decide
  · intro h
    simp only [List.mem_cons, List.mem_singleton, List.not_mem_nil, or_false, not_or] at h
    simp [h.1, h.2.1, h.2.2]

theorem toTypes_cases (to_ : String) :
    (to_ ∈ kinds → (toTypes to_).2 ≠ .OUTPUT_NULL) ∧
    (to_ ∉ kinds → (toTypes to_).2 = .OUTPUT_NULL) := by
  unfold toTypes kinds
  constructor
  · intro h
    simp only [List.mem_cons, List.mem_singleton, List.not_mem_nil, or_false] at h
    rcases h with h | h | h <;> subst h <;> decide
  · intro h
    simp only [List.mem_cons, List.mem_singleton, List.not_mem_nil, or_false, not_or] at h
    simp [h.1, h.2.1, h.2.2]

/-- C7: `from` and `to` are mapped alike: "plain" to `getnewaddress` and
`OUTPUT_STANDARD`, "blind" to `getnewstealthaddress` and `OUTPUT_CT`, "anon" to
`getnewstealthaddress` and `OUTPUT_RINGCT`, anything else leaves `OUTPUT_NULL`.  For the
nine combinations over these three names a run of `AddTx` fails neither the assertion of
line 186 nor that of line 187; once both wallets are created, a `from` outside the set
fails line 186, and a `to` outside the set (with `from` inside) fails line 187. -/
theorem C7_nine_combinations_accepted {σ τ : Type} (env : Env σ τ) (state : Nat)
    (from_ to_ : String) (owned : Bool) (s : σ) :
    (fromTypes "plain" = ("getnewaddress", .OUTPUT_STANDARD) ∧
      fromTypes "blind" = ("getnewstealthaddress", .OUTPUT_CT) ∧
      fromTypes "anon" = ("getnewstealthaddress", .OUTPUT_RINGCT) ∧
      toTypes "plain" = ("getnewaddress", .OUTPUT_STANDARD) ∧
      toTypes "blind" = ("getnewstealthaddress", .OUTPUT_CT) ∧
      toTypes "anon" = ("getnewstealthaddress", .OUTPUT_RINGCT)) ∧
    (from_ ∉ kinds → (fromTypes from_).2 = .OUTPUT_NULL) ∧
    (to_ ∉ kinds → (toTypes to_).2 = .OUTPUT_NULL) ∧
    (from_ ∈ kinds → to_ ∈ kinds →
      (AddTx env state from_ to_ owned s).2 ≠ .assertFailed 186 ∧
      (AddTx env state from_ to_ owned s).2 ≠ .assertFailed 187) ∧
    ((∀ l s1, (env.CreateWalletFromFile l s1).1 = true) → from_ ∉ kinds →
      (AddTx env state from_ to_ owned s).2 = .assertFailed 186) ∧
    ((∀ l s1, (env.CreateWalletFromFile l s1).1 = true) → from_ ∈ kinds → to_ ∉ kinds →
      (AddTx env state from_ to_ owned s).2 = .assertFailed 187) := by
  have hF := fromTypes_cases from_
  have hT := toTypes_cases to_
  have key : ∀ line, (AddTx env state from_ to_ owned s).2 = .assertFailed line →
      (∀ l s1, (env.CreateWalletFromFile l s1).1 = true) →
      ((fromTypes from_).2 = .OUTPUT_NULL ∨ (toTypes to_).2 = .OUTPUT_NULL) →
      line = 186 ∧ (fromTypes from_).2 = .OUTPUT_NULL ∨
      line = 187 ∧ (fromTypes from_).2 ≠ .OUTPUT_NULL ∧ (toTypes to_).2 = .OUTPUT_NULL := by
    intro line h hw hnull
    rcases AddTx_failed env state from_ to_ owned s line h with
      ⟨_, l, s1, hc⟩ | h1 | h1 | ⟨h1, h2, _⟩
    · rw [hw] at hc; exact absurd hc (by decide)
    · exact Or.inl h1
    · exact Or.inr h1
    · rcases hnull with h3 | h3
      · exact absurd h3 h1
      · exact absurd h3 h2
  have fails : (∀ l s1, (env.CreateWalletFromFile l s1).1 = true) →
      ((fromTypes from_).2 = .OUTPUT_NULL ∨ (toTypes to_).2 = .OUTPUT_NULL) →
      ∃ line, (AddTx env state from_ to_ owned s).2 = .assertFailed line := by
    intro _ hnull
    cases hres : (AddTx env state from_ to_ owned s).2 with
    | assertFailed line => exact ⟨line, rfl⟩
    | returned =>
      obtain ⟨_, _, _, _, _, _, _, _, h1, h2, _⟩ := AddTx_returned env state from_ to_ owned s hres
      rcases hnull with h3 | h3
      · exact absurd h3 h1
      · exact absurd h3 h2
  refine ⟨by decide, hF.2, hT.2, ?_, ?_, ?_⟩
  · intro hf ht
    constructor
    · intro h
      rcases AddTx_failed env state from_ to_ owned s 186 h with
        ⟨h1, _⟩ | h1 | h1 | ⟨_, _, h1⟩
      · omega
      · exact hF.1 hf h1.2
      · omega
      · omega
    · intro h
      rcases AddTx_failed env state from_ to_ owned s 187 h with
        ⟨h1, _⟩ | h1 | h1 | ⟨_, _, h1⟩
      · omega
      · omega
      · exact hT.1 ht h1.2.2
      · omega
  · intro hw hf
    obtain ⟨line, hline⟩ := fails hw (Or.inl (hF.2 hf))
    rcases key line hline hw (Or.inl (hF.2 hf)) with h1 | h1
    · rw [hline, h1.1]
    · exact absurd (hF.2 hf) h1.2.1
  · intro hw hf ht
    obtain ⟨line, hline⟩ := fails hw (Or.inr (hT.2 ht))
    rcases key line hline hw (Or.inr (hT.2 ht)) with h1 | h1
    · exact absurd h1.2 (hF.1 hf)
    · rw [hline, h1.1]

/-- C8: in a run of `AddTx` that returns, `CreateTxn` is called exactly once, on wallet A,
with amount 1000, the codes of `from_tx_type` and `to_tx_type` and no ring size (so the
default); its address is the one the RPC gave for wallet B when `owned` is true and the
one it gave for wallet A when `owned` is false.  The build routine of that call is the
last build of the run, its single recipient carries that address, and every ingestion
call is on wallet B with the transaction that this build returned. -/
theorem C8_ingested_transaction {σ τ : Type} (env : Env σ τ) (state : Nat) (from_ to_ : String)
    (owned : Bool) (s : σ) (hret : (AddTx env state from_ to_ owned s).2 = .returned) :
    ∃ (i1 i2 ra rb : String) (tx : τ),
      (AddTx env state from_ to_ owned s).1.log.filter Event.isCallRPC =
        [.CallRPC importMasterA "a" i1, .CallRPC importMasterB "b" i2,
          .CallRPC (fromTypes from_).1 "a" ra, .CallRPC (toTypes to_).1 "b" rb] ∧
      (AddTx env state from_ to_ owned s).1.log.filter Event.isCreateTxn =
        [.CreateTxn "a" (if owned then ⟨rb⟩ else ⟨ra⟩) 1000 (env.code (fromTypes from_).2)
          (env.code (toTypes to_).2) none] ∧
      ((AddTx env state from_ to_ owned s).1.log.filter Event.isBuild).getLast? =
        some (buildEntry env "a"
          [{ nType := env.code (toTypes to_).2, amount := 1000,
             address := CBitcoinAddress.Get (if owned then ⟨rb⟩ else ⟨ra⟩) }]
          (env.code (fromTypes from_).2) 5 0 tx) ∧
      (AddTx env state from_ to_ owned s).1.log.filter Event.isIngest =
        List.replicate state (.AddToWalletIfInvolvingMe "b" tx) := by
  obtain ⟨i1, i2, ra, rb, txs, tx, _, hnil, _, _, hlog⟩ :=
    AddTx_returned env state from_ to_ owned s hret
  obtain ⟨f1, f2, f3, _, _⟩ := filter_fundingLog env from_ ⟨ra⟩ txs hnil
  obtain ⟨b1, b2, b3, b4, _, _⟩ := buildEntry_kind env "a"
    [{ nType := env.code (toTypes to_).2, amount := 1000,
       address := CBitcoinAddress.Get (if owned then ⟨rb⟩ else ⟨ra⟩) }]
    (env.code (fromTypes from_).2) 5 0 tx
  refine ⟨i1, i2, ra, rb, tx, ?_, ?_, ?_, ?_⟩
  · rw [hlog]
    simp only [List.filter_append, List.filter_cons, f1, b2, Bool.false_eq_true, if_false]
    simp [setupLog, teardownLog, Event.isCallRPC, List.filter_replicate]
  · rw [hlog]
    simp only [List.filter_append, List.filter_cons, f2, b3, Bool.false_eq_true, if_false]
    simp [setupLog, teardownLog, Event.isCreateTxn, List.filter_replicate]
  · rw [hlog]
    simp only [List.filter_append, List.filter_cons, b1, if_true]
    simp [setupLog, teardownLog, Event.isBuild, List.filter_replicate, List.getLast?_append]
  · rw [hlog]
    simp only [List.filter_append, List.filter_cons, f3, b4, Bool.false_eq_true, if_false]
    simp [setupLog, teardownLog, Event.isIngest, List.filter_replicate]

/-- Worked instance of C8: blind to anon, owned, two iterations. -/
theorem C8_witness :
    ∃ (i1 i2 ra rb : String) (tx : Nat),
      (AddTx (demoEnv true true 0) 2 "blind" "anon" true 1600000007).1.log.filter
          Event.isCallRPC =
        [.CallRPC importMasterA "a" i1, .CallRPC importMasterB "b" i2,
          .CallRPC (fromTypes "blind").1 "a" ra, .CallRPC (toTypes "anon").1 "b" rb] ∧
      (AddTx (demoEnv true true 0) 2 "blind" "anon" true 1600000007).1.log.filter
          Event.isCreateTxn =
        [.CreateTxn "a" (if true then ⟨rb⟩ else ⟨ra⟩) 1000
          ((demoEnv true true 0).code (fromTypes "blind").2)
          ((demoEnv true true 0).code (toTypes "anon").2) none] ∧
      ((AddTx (demoEnv true true 0) 2 "blind" "anon" true 1600000007).1.log.filter
          Event.isBuild).getLast? =
        some (buildEntry (demoEnv true true 0) "a"
          [{ nType := (demoEnv true true 0).code (toTypes "anon").2, amount := 1000,
             address := CBitcoinAddress.Get (if true then ⟨rb⟩ else ⟨ra⟩) }]
          ((demoEnv true true 0).code (fromTypes "blind").2) 5 0 tx) ∧
      (AddTx (demoEnv true true 0) 2 "blind" "anon" true 1600000007).1.log.filter
          Event.isIngest =
        List.replicate 2 (.AddToWalletIfInvolvingMe "b" tx) :=
  C8_ingested_transaction (demoEnv true true 0) 2 "blind" "anon" true 1600000007 (by decide)

set_option maxRecDepth 100000 in
/-- C10: there are 16 registrations, with distinct names and 100 iterations each; every
registered name is a defined function whose body calls `AddTx` with the `from`, `to`
and `owned` that the name states; and a combination over plain, blind, anon with either
value of `owned` is registered exactly when it is not plain to anon. -/
theorem C10_registered_benchmarks :
    registrations.length = 16 ∧
    (registrations.map Prod.fst).Nodup ∧
    (∀ r ∈ registrations, r.2 = 100) ∧
    (∀ r ∈ registrations, ∃ f, resolve r.1 = some f ∧ f.name = r.1 ∧
      f.from_ ∈ kinds ∧ f.to_ ∈ kinds ∧ f.name = benchName f.from_ f.to_ f.owned) ∧
    (∀ x ∈ kinds, ∀ y ∈ kinds, ∀ o : Bool,
      ((benchName x y o, 100) ∈ registrations ∧
          resolve (benchName x y o) = some ⟨benchName x y o, x, y, o⟩) ↔
        ¬ (x = "plain" ∧ y = "anon")) := by
  refine ⟨by decide, by decide, by decide, ?_, by decide⟩
  decide

end AddTxBench
